import Mathlib

/-!
Verification of the payday-scheduler core (`salary_calculation.py`).

A shallow embedding of the core functions of `salary_calculation.py`:
`calculate_salary`, `get_previous_working_day` and `get_payday_schedule`.

Modelling choices:

* Python `float` amounts are modelled as exact rationals (`ℚ`); the tax
  constants `0.13` and `1 - 0.13` are exactly `13/100` and `87/100`.
* Python `datetime.date` values are modelled by their proleptic-Gregorian
  ordinal (`date.toordinal()`), an integer with day 1 = 0001-01-01 and
  `weekday = (ordinal + 6) % 7` (Monday = 0).  `toOrdinal` below implements
  the same formula as CPython's `datetime`, valid for years ≥ 1 (Python
  itself rejects years outside 1..9999).
* The two network fetchers `get_work_calendar(year)` and
  `get_holidays_and_short_days(year)` are memoized pure lookups for the
  lifetime of the process, so they are modelled as explicit function/data
  parameters `cal : ℕ → ℕ → Month` (year → month → data) and
  `hol : HolidaysData`.
* Python exceptions are modelled with `Except PyError`: the `ValueError`s
  raised by `get_payday_schedule`'s override validation, and the
  `ZeroDivisionError` that Python's `/` raises when the month's
  working-day count is zero (the source has no explicit zero test; the
  error value `zeroDivisionError` is the behaviour of the division itself).
-/

set_option linter.unusedVariables false

namespace Payday

/-- `Month` (`TypedDict`): one month's entry of the fetched work calendar. -/
structure Month where
  id : ℕ
  name : String
  workingDays : ℤ
  notWorkingDays : ℤ
  shortDays : ℤ
  workingHours : ℤ
deriving DecidableEq

/-- `SalaryResult` (`TypedDict`): before-tax amount, tax, after-tax amount. -/
structure SalaryResult where
  before_tax : ℚ
  tax : ℚ
  after_tax : ℚ
deriving DecidableEq

instance : Inhabited SalaryResult := ⟨⟨0, 0, 0⟩⟩

/-- `HolidaysData` (`TypedDict`): holiday and short-day dates for a year.
Dates are stored as proleptic-Gregorian ordinals.  Names are dropped: the
scheduling code only ever compares the `date` field of each holiday. -/
structure HolidaysData where
  year : ℕ
  holidays : List ℤ
  shortDays : List ℤ

/-- The two values of the `mode` literal:
`gross` = "До вычета НДФЛ", `net` = "На руки". -/
inductive Mode
  | gross
  | net
deriving DecidableEq

/-- Python exceptions that the embedded functions can raise. -/
inductive PyError
  | valueError (msg : String)
  | zeroDivisionError
deriving DecidableEq

/-- `it_is` field of a schedule item: `"advance"` or `"salary"`. -/
inductive ItKind
  | advance
  | salary
deriving DecidableEq

/-- `PaydayScheduleItem` (`TypedDict`).  `date` is a Gregorian ordinal. -/
structure PaydayScheduleItem where
  date : ℤ
  it_is : ItKind
  working_days : ℤ
  max_working_days : ℤ
  salary : SalaryResult
  date_was_moved : Bool
deriving DecidableEq

instance : Inhabited PaydayScheduleItem := ⟨⟨0, .advance, 0, 0, default, false⟩⟩

/-! ## Date arithmetic (CPython `datetime.date`, proleptic Gregorian) -/

/-- Gregorian leap-year test (as in CPython `datetime`). -/
def isLeapYear (y : ℕ) : Bool := y % 4 == 0 && (y % 100 != 0 || y % 400 == 0)

/-- Number of days in month `m` (1..12) of year `y`. -/
def daysInMonth (y : ℕ) (m : ℕ) : ℕ :=
  match m with
  | 1 => 31
  | 2 => if isLeapYear y then 29 else 28
  | 3 => 31
  | 4 => 30
  | 5 => 31
  | 6 => 30
  | 7 => 31
  | 8 => 31
  | 9 => 30
  | 10 => 31
  | 11 => 30
  | 12 => 31
  | _ => 0

/-- Days in all years before year `y` (CPython `_days_before_year`).
Meaningful for `y ≥ 1`, the domain of Python dates. -/
def daysBeforeYear (y : ℕ) : ℕ :=
  365 * (y - 1) + (y - 1) / 4 - (y - 1) / 100 + (y - 1) / 400

/-- Days in year `y` strictly before month `m` (CPython `_days_before_month`). -/
def daysBeforeMonth (y : ℕ) (m : ℕ) : ℕ :=
  ((List.range' 1 (m - 1)).map (daysInMonth y)).sum

/-- `date(y, m, d).toordinal()`: day 1 is 0001-01-01.  The day component is
an integer so that expressions such as `min advance_day last_day` coming
from Python `int` arithmetic can be substituted directly. -/
def toOrdinal (y : ℕ) (m : ℕ) (d : ℤ) : ℤ :=
  (daysBeforeYear y : ℤ) + (daysBeforeMonth y m : ℤ) + d

/-- `date.weekday()`: Monday = 0 .. Sunday = 6, from the ordinal. -/
def weekday (o : ℤ) : ℤ := (o + 6) % 7

/-! ## `calculate_salary` -/

/-- The flat tax constant `TAX_RATE = 0.13` of `calculate_salary`. -/
def TAX_RATE : ℚ := 13 / 100

/-- `calculate_salary(month, year, days_worked, amount, mode)`.

`cal` models the memoized `get_work_calendar` fetcher (year → month →
`Month`); the body's `calendar = get_work_calendar(year)` becomes
`cal year`.  When the month's `workingDays` is zero, Python's
`amount / work_days` raises `ZeroDivisionError`; the embedding returns
that error (the zero test below is the semantics of Python division, not
an extra guard in the source). -/
def calculate_salary (cal : ℕ → ℕ → Month) (month : ℕ) (year : ℕ)
    (days_worked : ℤ) (amount : ℚ) (mode : Mode) : Except PyError SalaryResult :=
  let calendar := cal year
  let work_days := (calendar month).workingDays
  if work_days = 0 then
    .error .zeroDivisionError
  else
    let daily_rate := amount / (work_days : ℚ)
    let period_amount := daily_rate * (days_worked : ℚ)
    match mode with
    | .gross =>
        let before_tax := period_amount
        let tax := before_tax * TAX_RATE
        let after_tax := before_tax - tax
        .ok ⟨before_tax, tax, after_tax⟩
    | .net =>
        let after_tax := period_amount
        let before_tax := after_tax / (1 - TAX_RATE)
        let tax := before_tax * TAX_RATE
        .ok ⟨before_tax, tax, after_tax⟩

/-! ## `get_previous_working_day` -/

/-- The `is_holiday` test of the loop body:
`any(h["date"] == current_date for h in holidays_data["holidays"])`. -/
def isHoliday (hol : List ℤ) (d : ℤ) : Bool := hol.contains d

/-- The `is_weekend` test of the loop body: `weekday() >= 5`. -/
def isWeekend (d : ℤ) : Bool := 5 ≤ weekday d

/-- The loop's exit condition: `not is_holiday and not is_weekend`. -/
def isWorkingDay (hol : List ℤ) (d : ℤ) : Bool := !isHoliday hol d && !isWeekend d

/-- The `while True` loop of `get_previous_working_day`, with explicit
fuel: step backward one day at a time until a working day is found.  If
the fuel runs out the current day is returned; `gpwd_fuel_sufficient`
below shows the fallback is never reached with fuel `7 * (|hol| + 1)`. -/
def gpwdAux (hol : List ℤ) : ℕ → ℤ → ℤ
  | 0, d => d
  | fuel + 1, d => if isWorkingDay hol d then d else gpwdAux hol fuel (d - 1)

/-- `get_previous_working_day(date, holidays_data)`: latest non-weekend,
non-holiday day `≤ date`.  The Python loop is unbounded; `7 * (|hol| + 1)`
steps always suffice (`gpwd_exists_working`), so this fuel value realizes
the loop exactly. -/
def get_previous_working_day (d : ℤ) (hol : HolidaysData) : ℤ :=
  gpwdAux hol.holidays (7 * (hol.holidays.length + 1)) d

/-! ## `get_payday_schedule`

The body of the `for month in range(1, 13)` loop is split in source order
into the date/working-day-count computations (lines up to the
`max_salary_working_days` assignment, `monthDates`) and the
override-validation / salary computations that follow (`monthSalaries`).
The loop itself is `scheduleMonths` over `[1, …, 12]`, preceded by the
override length check. -/

/-- The intermediate values the loop body computes for one month before
the override check: both payment dates, their moved flags, and the two
maximal working-day counts. -/
structure MonthDates where
  advance_date : ℤ
  advance_date_was_moved : Bool
  salary_date : ℤ
  salary_date_was_moved : Bool
  max_advance_working_days : ℕ
  max_salary_working_days : ℤ
deriving DecidableEq

/-- The working-day counting loop over `date(year, month, 1) ..
date(year, month, 15)` (15 consecutive days): number of non-holiday
non-weekend days in the first half of the month. -/
def countFirstHalfWorkingDays (hol : List ℤ) (year : ℕ) (month : ℕ) : ℕ :=
  ((List.range 15).filter (fun i => isWorkingDay hol (toOrdinal year month 1 + i))).length

/-- Lines 213–257 of the loop body: advance date, salary date (next
month, rolling into `year + 1` after December), moved flags and the two
per-period maxima.  `last_day_of_month` is
`(date(year, month + 1, 1) - timedelta(days=1)).day` in the source, which
is exactly the number of days in `month`; December is hardcoded to 31. -/
def monthDates (cal : ℕ → ℕ → Month) (hol : HolidaysData) (year : ℕ)
    (advance_day : ℤ) (month : ℕ) : MonthDates :=
  let last_day_of_month : ℤ := if month < 12 then (daysInMonth year month : ℤ) else 31
  let actual_advance_day := min advance_day last_day_of_month
  let original_advance_date := toOrdinal year month actual_advance_day
  let advance_date := get_previous_working_day original_advance_date hol
  let advance_date_was_moved := advance_date != original_advance_date
  let salary_day : ℤ := if advance_day - 15 < 1 then 1 else advance_day - 15
  let salary_month := if month + 1 > 12 then 1 else month + 1
  let salary_year := if month + 1 > 12 then year + 1 else year
  let last_day_of_salary_month : ℤ :=
    if salary_month < 12 then (daysInMonth salary_year salary_month : ℤ) else 31
  let actual_salary_day := min salary_day last_day_of_salary_month
  let original_salary_date := toOrdinal salary_year salary_month actual_salary_day
  let salary_date := get_previous_working_day original_salary_date hol
  let salary_date_was_moved := salary_date != original_salary_date
  let max_advance_working_days := countFirstHalfWorkingDays hol.holidays year month
  let max_salary_working_days :=
    (cal year month).workingDays - (max_advance_working_days : ℤ)
  { advance_date := advance_date
    advance_date_was_moved := advance_date_was_moved
    salary_date := salary_date
    salary_date_was_moved := salary_date_was_moved
    max_advance_working_days := max_advance_working_days
    max_salary_working_days := max_salary_working_days }

/-- Lines 271–296 of the loop body: the two `calculate_salary` calls —
both passing `month`, the origin month, never `salary_month` — and the
two schedule items appended for the month. -/
def mkMonthItems (cal : ℕ → ℕ → Month) (year : ℕ) (mode : Mode) (amount : ℚ)
    (month : ℕ) (dp : MonthDates) (advance_working_days salary_working_days : ℤ) :
    Except PyError (PaydayScheduleItem × PaydayScheduleItem) :=
  match calculate_salary cal month year advance_working_days amount mode with
  | .error e => .error e
  | .ok advance_salary =>
  match calculate_salary cal month year salary_working_days amount mode with
  | .error e => .error e
  | .ok salary_salary =>
  .ok
    ({ date := dp.advance_date
       it_is := .advance
       working_days := advance_working_days
       max_working_days := (dp.max_advance_working_days : ℤ)
       salary := advance_salary
       date_was_moved := dp.advance_date_was_moved },
     { date := dp.salary_date
       it_is := .salary
       working_days := salary_working_days
       max_working_days := dp.max_salary_working_days
       salary := salary_salary
       date_was_moved := dp.salary_date_was_moved })

/-- The `ValueError` message of the per-month capacity check. -/
def capacityErrorMsg (month : ℕ) (total : ℤ) (calDays : ℤ) : String :=
  "Total working days for month " ++ toString month ++ " (" ++ toString total ++
    ") exceeds calendar working days (" ++ toString calDays ++ ")"

/-- Lines 259–296 of the loop body: pick the month's working-day split
(the caller's `working_days[month - 1]` when overrides were supplied —
the surrounding function has already checked the list has 12 entries, so
`getD` with a dummy default is exact — otherwise the computed maxima),
enforce the capacity check, then build the two items. -/
def monthSalaries (cal : ℕ → ℕ → Month) (year : ℕ) (mode : Mode) (amount : ℚ)
    (working_days : Option (List (ℤ × ℤ))) (month : ℕ) (dp : MonthDates) :
    Except PyError (PaydayScheduleItem × PaydayScheduleItem) :=
  match working_days with
  | some wds =>
      let p := wds.getD (month - 1) (0, 0)
      if (cal year month).workingDays < p.1 + p.2 then
        .error (.valueError (capacityErrorMsg month (p.1 + p.2) (cal year month).workingDays))
      else
        mkMonthItems cal year mode amount month dp p.1 p.2
  | none =>
      mkMonthItems cal year mode amount month dp
        (dp.max_advance_working_days : ℤ) dp.max_salary_working_days

/-- One iteration of the `for month in range(1, 13)` loop. -/
def monthSchedule (cal : ℕ → ℕ → Month) (hol : HolidaysData) (year : ℕ)
    (advance_day : ℤ) (mode : Mode) (amount : ℚ)
    (working_days : Option (List (ℤ × ℤ))) (month : ℕ) :
    Except PyError (PaydayScheduleItem × PaydayScheduleItem) :=
  monthSalaries cal year mode amount working_days month
    (monthDates cal hol year advance_day month)

/-- The loop over the month list: append the advance item then the salary
item for each month; the first raised error aborts the whole call, so no
partial schedule is ever produced. -/
def scheduleMonths (cal : ℕ → ℕ → Month) (hol : HolidaysData) (year : ℕ)
    (advance_day : ℤ) (mode : Mode) (amount : ℚ)
    (working_days : Option (List (ℤ × ℤ))) :
    List ℕ → Except PyError (List PaydayScheduleItem)
  | [] => .ok []
  | m :: ms =>
      match monthSchedule cal hol year advance_day mode amount working_days m with
      | .error e => .error e
      | .ok (a, s) =>
      match scheduleMonths cal hol year advance_day mode amount working_days ms with
      | .error e => .error e
      | .ok rest => .ok (a :: s :: rest)

/-- The `ValueError` message of the override length check. -/
def lengthErrorMsg : String :=
  "working_days must contain exactly 12 tuples (one for each month)"

/-- `get_payday_schedule(year, advance_day, mode, amount, working_days)`.

`cal` and `hol` model the memoized `get_work_calendar(year)` /
`get_holidays_and_short_days(year)` fetch results.  The override length
check precedes the loop; everything else happens per month inside
`monthSchedule`. -/
def get_payday_schedule (cal : ℕ → ℕ → Month) (hol : HolidaysData) (year : ℕ)
    (advance_day : ℤ) (mode : Mode) (amount : ℚ)
    (working_days : Option (List (ℤ × ℤ))) : Except PyError (List PaydayScheduleItem) :=
  match working_days with
  | some wds =>
      if wds.length ≠ 12 then .error (.valueError lengthErrorMsg)
      else scheduleMonths cal hol year advance_day mode amount working_days (List.range' 1 12)
  | none => scheduleMonths cal hol year advance_day mode amount working_days (List.range' 1 12)

/-! ### Evaluation-order instrumentation

`get_payday_schedule_traced` is the same computation as
`get_payday_schedule`, additionally recording, in source evaluation
order, which stages of the loop body actually ran before the call
returned: for each month, the date/working-day-count stage (lines
213–257, before the override validation) and the salary-computation
stage (lines 271–296, after it).  It makes the claim "a validation error
is raised before any date/salary computation" expressible: the first
component coincides with `get_payday_schedule`
(`scheduleMonthsTraced_fst`), the second is the log of completed stages
at the moment the call returned. -/

/-- A completed stage of one loop iteration. -/
inductive SchedEvent
  | datesComputed (month : ℕ)
  | salariesComputed (month : ℕ)
deriving DecidableEq

/-- The traced loop: per month, the dates stage runs first and is logged;
if the override validation (or a salary computation) fails, the error
aborts the loop with the log so far. -/
def scheduleMonthsTraced (cal : ℕ → ℕ → Month) (hol : HolidaysData) (year : ℕ)
    (advance_day : ℤ) (mode : Mode) (amount : ℚ)
    (working_days : Option (List (ℤ × ℤ))) :
    List ℕ → Except PyError (List PaydayScheduleItem) × List SchedEvent
  | [] => (.ok [], [])
  | m :: ms =>
      let dp := monthDates cal hol year advance_day m
      match monthSalaries cal year mode amount working_days m dp with
      | .error e => (.error e, [.datesComputed m])
      | .ok (a, s) =>
          let (rest, evs) :=
            scheduleMonthsTraced cal hol year advance_day mode amount working_days ms
          (rest.map (fun l => a :: s :: l),
            .datesComputed m :: .salariesComputed m :: evs)

/-- Traced version of `get_payday_schedule`: the length check fires
before the loop starts, with an empty log. -/
def get_payday_schedule_traced (cal : ℕ → ℕ → Month) (hol : HolidaysData) (year : ℕ)
    (advance_day : ℤ) (mode : Mode) (amount : ℚ)
    (working_days : Option (List (ℤ × ℤ))) :
    Except PyError (List PaydayScheduleItem) × List SchedEvent :=
  match working_days with
  | some wds =>
      if wds.length ≠ 12 then (.error (.valueError lengthErrorMsg), [])
      else scheduleMonthsTraced cal hol year advance_day mode amount working_days (List.range' 1 12)
  | none => scheduleMonthsTraced cal hol year advance_day mode amount working_days (List.range' 1 12)

/-- `true` exactly on the `ValueError`s of the embedding — the errors the
spec calls validation errors (`ZeroDivisionError` is not one). -/
def isValidationError {α : Type} : Except PyError α → Bool
  | .error (.valueError _) => true
  | _ => false

/-! ## Concrete fixtures used by witnesses and counterexamples -/

/-- Extract the payload of a successful call (dummy default otherwise). -/
def okValue {α : Type} [Inhabited α] : Except PyError α → α
  | .ok a => a
  | .error _ => default

/-- A fetched calendar in which every month has `wd` working days. -/
def calConst (wd : ℤ) : ℕ → ℕ → Month :=
  fun _ m => { id := m, name := "", workingDays := wd, notWorkingDays := 0,
               shortDays := 0, workingHours := 0 }

/-- A fetched holiday list with no holidays at all. -/
def noHolidays (y : ℕ) : HolidaysData := ⟨y, [], []⟩

/-! ## Basic facts about `calculate_salary` -/

/-- A successful `calculate_salary` call implies the month's working-day
count was nonzero (otherwise the division raises). -/
theorem calculate_salary_ok_workingDays {cal : ℕ → ℕ → Month} {month year : ℕ}
    {days_worked : ℤ} {amount : ℚ} {mode : Mode} {r : SalaryResult}
    (h : calculate_salary cal month year days_worked amount mode = .ok r) :
    (cal year month).workingDays ≠ 0 := by
  intro h0
  simp [calculate_salary, h0] at h

/-- With a zero working-day count, `calculate_salary` raises
`ZeroDivisionError` from the `amount / work_days` division. -/
theorem calculate_salary_zero {cal : ℕ → ℕ → Month} {month year : ℕ}
    {days_worked : ℤ} {amount : ℚ} {mode : Mode}
    (h0 : (cal year month).workingDays = 0) :
    calculate_salary cal month year days_worked amount mode = .error .zeroDivisionError := by
  simp [calculate_salary, h0]

/-- The only error `calculate_salary` can raise is `ZeroDivisionError`. -/
theorem calculate_salary_error_eq {cal : ℕ → ℕ → Month} {month year : ℕ}
    {days_worked : ℤ} {amount : ℚ} {mode : Mode} {e : PyError}
    (h : calculate_salary cal month year days_worked amount mode = .error e) :
    e = .zeroDivisionError := by
  by_cases h0 : (cal year month).workingDays = 0
  · rw [calculate_salary_zero h0] at h
    exact (Except.error.inj h).symm
  · cases mode <;> simp [calculate_salary, h0] at h

/-- Closed form of a gross-mode (`"До вычета НДФЛ"`) call. -/
theorem calculate_salary_gross {cal : ℕ → ℕ → Month} {month year : ℕ}
    {days_worked : ℤ} {amount : ℚ}
    (h0 : (cal year month).workingDays ≠ 0) :
    calculate_salary cal month year days_worked amount .gross =
      .ok { before_tax := amount / ((cal year month).workingDays : ℚ) * (days_worked : ℚ),
            tax := amount / ((cal year month).workingDays : ℚ) * (days_worked : ℚ) * TAX_RATE,
            after_tax := amount / ((cal year month).workingDays : ℚ) * (days_worked : ℚ) -
              amount / ((cal year month).workingDays : ℚ) * (days_worked : ℚ) * TAX_RATE } := by
  simp [calculate_salary, h0]

/-- Closed form of a net-mode (`"На руки"`) call. -/
theorem calculate_salary_net {cal : ℕ → ℕ → Month} {month year : ℕ}
    {days_worked : ℤ} {amount : ℚ}
    (h0 : (cal year month).workingDays ≠ 0) :
    calculate_salary cal month year days_worked amount .net =
      .ok { before_tax := amount / ((cal year month).workingDays : ℚ) * (days_worked : ℚ) /
              (1 - TAX_RATE),
            tax := amount / ((cal year month).workingDays : ℚ) * (days_worked : ℚ) /
              (1 - TAX_RATE) * TAX_RATE,
            after_tax := amount / ((cal year month).workingDays : ℚ) * (days_worked : ℚ) } := by
  simp [calculate_salary, h0]

/-- Whenever the working-day count is nonzero, `calculate_salary`
succeeds (in either mode). -/
theorem calculate_salary_ok (cal : ℕ → ℕ → Month) (month year : ℕ)
    (days_worked : ℤ) (amount : ℚ) (mode : Mode)
    (h0 : (cal year month).workingDays ≠ 0) :
    ∃ r, calculate_salary cal month year days_worked amount mode = .ok r := by
  cases mode
  · exact ⟨_, calculate_salary_gross h0⟩
  · exact ⟨_, calculate_salary_net h0⟩

/-! ## Termination and characterization of `get_previous_working_day` -/

/-- `weekday` always lands in `0..6`. -/
theorem weekday_lt (o : ℤ) : 0 ≤ weekday o ∧ weekday o < 7 := by
  unfold weekday
  omega

/-- Within any window of `7 * (|hol| + 1)` consecutive days ending at `d`
there is a working day: the window contains `|hol| + 1` distinct days of
a fixed non-weekend weekday, and at most `|hol|` of them can be
holidays.  This is why the source's unbounded backward loop terminates. -/
theorem gpwd_exists_working (hol : List ℤ) (d : ℤ) :
    ∃ k : ℕ, k < 7 * (hol.length + 1) ∧ isWorkingDay hol (d - k) = true := by
  by_contra hcon
  push_neg at hcon
  have hcon' : ∀ k : ℕ, k < 7 * (hol.length + 1) → isWorkingDay hol (d - k) = false := by
    intro k hk
    simpa using hcon k hk
  -- `s` shifts `d` back to the nearest Friday (weekday 4)
  obtain ⟨s, hsk, hs0, hs7⟩ : ∃ s : ℤ, (d + 2) % 7 = s ∧ 0 ≤ s ∧ s < 7 :=
    ⟨(d + 2) % 7, rfl, by omega, by omega⟩
  have hmem : ∀ j : ℕ, j < hol.length + 1 → (d - (s + 7 * j)) ∈ hol := by
    intro j hj
    have hknat : ((s.toNat + 7 * j : ℕ) : ℤ) = s + 7 * j := by omega
    have hk : s.toNat + 7 * j < 7 * (hol.length + 1) := by omega
    have hbad := hcon' (s.toNat + 7 * j) hk
    rw [hknat] at hbad
    have hwd : weekday (d - (s + 7 * j)) = 4 := by
      unfold weekday
      omega
    have hnw : isWeekend (d - (s + 7 * j)) = false := by
      unfold isWeekend
      rw [hwd]
      rfl
    by_cases hh : isHoliday hol (d - (s + 7 * j)) = true
    · simpa [isHoliday] using hh
    · exfalso
      have hhf : isHoliday hol (d - (s + 7 * j)) = false := by simpa using hh
      have hok : isWorkingDay hol (d - (s + 7 * j)) = true := by
        simp [isWorkingDay, hhf, hnw]
      rw [hok] at hbad
      exact Bool.noConfusion hbad
  have hinj : Set.InjOn (fun j : ℕ => d - (s + 7 * j))
      ↑(Finset.range (hol.length + 1)) := by
    intro a _ b _ hab
    simp only at hab
    omega
  have hmaps : ∀ j ∈ Finset.range (hol.length + 1),
      (fun j : ℕ => d - (s + 7 * j)) j ∈ hol.toFinset := by
    intro j hj
    simpa [List.mem_toFinset] using hmem j (Finset.mem_range.mp hj)
  have hcard := Finset.card_le_card_of_injOn _ hmaps hinj
  have hcard2 : hol.toFinset.card ≤ hol.length := hol.toFinset_card_le
  simp [Finset.card_range] at hcard
  omega

/-- Behaviour of the fuelled loop given enough fuel to reach a working
day: it returns a working day, no later than the start, and skips only
non-working days. -/
theorem gpwdAux_spec (hol : List ℤ) :
    ∀ (fuel : ℕ) (d : ℤ), (∃ k : ℕ, k < fuel ∧ isWorkingDay hol (d - k) = true) →
      isWorkingDay hol (gpwdAux hol fuel d) = true ∧
      gpwdAux hol fuel d ≤ d ∧
      ∀ e : ℤ, gpwdAux hol fuel d < e → e ≤ d → isWorkingDay hol e = false := by
  intro fuel
  induction fuel with
  | zero =>
      rintro d ⟨k, hk, -⟩
      omega
  | succ n ih =>
      rintro d ⟨k, hk, hwk⟩
      by_cases hw : isWorkingDay hol d = true
      · have hred : gpwdAux hol (n + 1) d = d := by
          simp [gpwdAux, hw]
        rw [hred]
        exact ⟨hw, le_refl d, fun e he1 he2 => absurd (lt_of_lt_of_le he1 he2) (lt_irrefl d)⟩
      · have hwf : isWorkingDay hol d = false := by simpa using hw
        have hk0 : k ≠ 0 := by
          rintro rfl
          rw [show d - ((0 : ℕ) : ℤ) = d by push_cast; ring, hwf] at hwk
          exact Bool.false_ne_true hwk
        obtain ⟨k', rfl⟩ : ∃ k', k = k' + 1 := ⟨k - 1, by omega⟩
        have hwk' : isWorkingDay hol (d - 1 - k') = true := by
          rw [show d - 1 - (k' : ℤ) = d - ((k' + 1 : ℕ) : ℤ) by push_cast; ring]
          exact hwk
        obtain ⟨h1, h2, h3⟩ := ih (d - 1) ⟨k', by omega, hwk'⟩
        have hred : gpwdAux hol (n + 1) d = gpwdAux hol n (d - 1) := by
          simp [gpwdAux, hwf]
        rw [hred]
        refine ⟨h1, by omega, ?_⟩
        intro e he1 he2
        rcases eq_or_lt_of_le he2 with rfl | he3
        · exact hwf
        · exact h3 e he1 (by omega)

/-- Extra fuel does not change the result, once the fuel already reaches
a working day: the loop has terminated. -/
theorem gpwdAux_fuel_irrel (hol : List ℤ) :
    ∀ (fuel fuel' : ℕ) (d : ℤ),
      (∃ k : ℕ, k < fuel ∧ isWorkingDay hol (d - k) = true) →
      fuel ≤ fuel' → gpwdAux hol fuel' d = gpwdAux hol fuel d := by
  intro fuel
  induction fuel with
  | zero =>
      rintro fuel' d ⟨k, hk, -⟩
      omega
  | succ n ih =>
      rintro fuel' d ⟨k, hk, hwk⟩ hle
      obtain ⟨m, rfl⟩ : ∃ m, fuel' = m + 1 := ⟨fuel' - 1, by omega⟩
      by_cases hw : isWorkingDay hol d = true
      · simp [gpwdAux, hw]
      · have hwf : isWorkingDay hol d = false := by simpa using hw
        have hk0 : k ≠ 0 := by
          rintro rfl
          rw [show d - ((0 : ℕ) : ℤ) = d by push_cast; ring, hwf] at hwk
          exact Bool.false_ne_true hwk
        obtain ⟨k', rfl⟩ : ∃ k', k = k' + 1 := ⟨k - 1, by omega⟩
        have hwk' : isWorkingDay hol (d - 1 - k') = true := by
          rw [show d - 1 - (k' : ℤ) = d - ((k' + 1 : ℕ) : ℤ) by push_cast; ring]
          exact hwk
        have hr1 : gpwdAux hol (m + 1) d = gpwdAux hol m (d - 1) := by
          simp [gpwdAux, hwf]
        have hr2 : gpwdAux hol (n + 1) d = gpwdAux hol n (d - 1) := by
          simp [gpwdAux, hwf]
        rw [hr1, hr2]
        exact ih m (d - 1) ⟨k', by omega, hwk'⟩ (by omega)

/-- Full specification of `get_previous_working_day`: its result is a
working day, is at most the start, every day strictly between them is
non-working, and any fuel past the default bound gives the same result
(the unbounded source loop terminates there). -/
theorem get_previous_working_day_spec (d : ℤ) (hol : HolidaysData) :
    isWorkingDay hol.holidays (get_previous_working_day d hol) = true ∧
    get_previous_working_day d hol ≤ d ∧
    (∀ e : ℤ, get_previous_working_day d hol < e → e ≤ d →
      isWorkingDay hol.holidays e = false) ∧
    ∀ fuel : ℕ, 7 * (hol.holidays.length + 1) ≤ fuel →
      gpwdAux hol.holidays fuel d = get_previous_working_day d hol := by
  obtain ⟨k, hk, hwk⟩ := gpwd_exists_working hol.holidays d
  obtain ⟨h1, h2, h3⟩ := gpwdAux_spec hol.holidays _ d ⟨k, hk, hwk⟩
  exact ⟨h1, h2, h3, fun fuel hf =>
    gpwdAux_fuel_irrel hol.holidays _ fuel d ⟨k, hk, hwk⟩ hf⟩

/-! ## Structural lemmas on `get_payday_schedule` -/

/-- A successful `mkMonthItems` call determines both items completely:
each carries the `calculate_salary` result for ITS working-day count,
computed for the origin month. -/
theorem mkMonthItems_ok_inv {cal : ℕ → ℕ → Month} {year : ℕ} {mode : Mode}
    {amount : ℚ} {month : ℕ} {dp : MonthDates} {awd swd : ℤ}
    {a s : PaydayScheduleItem}
    (h : mkMonthItems cal year mode amount month dp awd swd = .ok (a, s)) :
    calculate_salary cal month year awd amount mode = .ok a.salary ∧
    calculate_salary cal month year swd amount mode = .ok s.salary ∧
    a.date = dp.advance_date ∧ a.it_is = .advance ∧ a.working_days = awd ∧
    a.max_working_days = (dp.max_advance_working_days : ℤ) ∧
    a.date_was_moved = dp.advance_date_was_moved ∧
    s.date = dp.salary_date ∧ s.it_is = .salary ∧ s.working_days = swd ∧
    s.max_working_days = dp.max_salary_working_days ∧
    s.date_was_moved = dp.salary_date_was_moved := by
  unfold mkMonthItems at h
  cases h1 : calculate_salary cal month year awd amount mode with
  | error e => simp only [h1] at h; exact (Except.noConfusion h)
  | ok ra =>
      simp only [h1] at h
      cases h2 : calculate_salary cal month year swd amount mode with
      | error e => simp only [h2] at h; exact (Except.noConfusion h)
      | ok rs =>
          simp only [h2, Except.ok.injEq, Prod.mk.injEq] at h
          obtain ⟨ha, hs⟩ := h
          subst ha hs
          exact ⟨rfl, rfl, rfl, rfl, rfl, rfl, rfl, rfl, rfl, rfl, rfl, rfl⟩

/-- With a nonzero working-day count for the month, `mkMonthItems`
succeeds. -/
theorem mkMonthItems_ok {cal : ℕ → ℕ → Month} {year : ℕ} {mode : Mode}
    {amount : ℚ} {month : ℕ} {dp : MonthDates} {awd swd : ℤ}
    (h0 : (cal year month).workingDays ≠ 0) :
    ∃ p, mkMonthItems cal year mode amount month dp awd swd = .ok p := by
  obtain ⟨ra, hra⟩ := calculate_salary_ok cal month year awd amount mode h0
  obtain ⟨rs, hrs⟩ := calculate_salary_ok cal month year swd amount mode h0
  unfold mkMonthItems
  rw [hra, hrs]
  exact ⟨_, rfl⟩

/-- `mkMonthItems` never raises a `ValueError`: its only failure source is
`calculate_salary`, whose only error is `ZeroDivisionError`. -/
theorem mkMonthItems_not_validation {cal : ℕ → ℕ → Month} {year : ℕ} {mode : Mode}
    {amount : ℚ} {month : ℕ} {dp : MonthDates} {awd swd : ℤ} :
    isValidationError (mkMonthItems cal year mode amount month dp awd swd) = false := by
  unfold mkMonthItems
  cases h1 : calculate_salary cal month year awd amount mode with
  | error e => rw [calculate_salary_error_eq h1]; rfl
  | ok ra =>
      cases h2 : calculate_salary cal month year swd amount mode with
      | error e => rw [calculate_salary_error_eq h2]; rfl
      | ok rs => rfl

/-- Unfolding `monthSchedule` when no override list was supplied: the
computed maxima are used directly. -/
theorem monthSchedule_none (cal : ℕ → ℕ → Month) (hol : HolidaysData) (year : ℕ)
    (advance_day : ℤ) (mode : Mode) (amount : ℚ) (month : ℕ) :
    monthSchedule cal hol year advance_day mode amount none month =
      mkMonthItems cal year mode amount month (monthDates cal hol year advance_day month)
        ((monthDates cal hol year advance_day month).max_advance_working_days : ℤ)
        (monthDates cal hol year advance_day month).max_salary_working_days := rfl

/-- Unfolding `monthSchedule` with an override list: the month's pair is
validated against the month's working-day capacity first. -/
theorem monthSchedule_some (cal : ℕ → ℕ → Month) (hol : HolidaysData) (year : ℕ)
    (advance_day : ℤ) (mode : Mode) (amount : ℚ) (wds : List (ℤ × ℤ)) (month : ℕ) :
    monthSchedule cal hol year advance_day mode amount (some wds) month =
      if (cal year month).workingDays <
          (wds.getD (month - 1) (0, 0)).1 + (wds.getD (month - 1) (0, 0)).2 then
        .error (.valueError (capacityErrorMsg month
          ((wds.getD (month - 1) (0, 0)).1 + (wds.getD (month - 1) (0, 0)).2)
          (cal year month).workingDays))
      else
        mkMonthItems cal year mode amount month (monthDates cal hol year advance_day month)
          (wds.getD (month - 1) (0, 0)).1 (wds.getD (month - 1) (0, 0)).2 := rfl

/-- The `max_salary_working_days` of a month is the month's calendar
working-day count minus its `max_advance_working_days`. -/
theorem monthDates_max_salary (cal : ℕ → ℕ → Month) (hol : HolidaysData) (year : ℕ)
    (advance_day : ℤ) (month : ℕ) :
    (monthDates cal hol year advance_day month).max_salary_working_days =
      (cal year month).workingDays -
        ((monthDates cal hol year advance_day month).max_advance_working_days : ℤ) := rfl

/-- A successful month iteration: its two items, with the capacity bound
and the `calculate_salary` equations for the ORIGIN month `month` (the
salary leg included), plus which split of working days was used. -/
theorem monthSchedule_ok_inv {cal : ℕ → ℕ → Month} {hol : HolidaysData} {year : ℕ}
    {advance_day : ℤ} {mode : Mode} {amount : ℚ} {wdo : Option (List (ℤ × ℤ))}
    {month : ℕ} {a s : PaydayScheduleItem}
    (h : monthSchedule cal hol year advance_day mode amount wdo month = .ok (a, s)) :
    a.it_is = .advance ∧ s.it_is = .salary ∧
    a.date = (monthDates cal hol year advance_day month).advance_date ∧
    s.date = (monthDates cal hol year advance_day month).salary_date ∧
    a.working_days + s.working_days ≤ (cal year month).workingDays ∧
    calculate_salary cal month year a.working_days amount mode = .ok a.salary ∧
    calculate_salary cal month year s.working_days amount mode = .ok s.salary ∧
    (wdo = none → a.working_days =
        ((monthDates cal hol year advance_day month).max_advance_working_days : ℤ) ∧
      s.working_days = (monthDates cal hol year advance_day month).max_salary_working_days) ∧
    (∀ wds, wdo = some wds → a.working_days = (wds.getD (month - 1) (0, 0)).1 ∧
      s.working_days = (wds.getD (month - 1) (0, 0)).2) := by
  cases wdo with
  | none =>
      rw [monthSchedule_none] at h
      obtain ⟨hca, hcs, had, hai, haw, -, -, hsd, hsi, hsw, -, -⟩ := mkMonthItems_ok_inv h
      refine ⟨hai, hsi, had, hsd, ?_, ?_, ?_,
        fun _ => ⟨haw, hsw⟩, fun _ hw => Option.noConfusion hw⟩
      · rw [haw, hsw, monthDates_max_salary]
        omega
      · rw [haw]; exact hca
      · rw [hsw]; exact hcs
  | some wds =>
      rw [monthSchedule_some] at h
      by_cases hcap : (cal year month).workingDays <
          (wds.getD (month - 1) (0, 0)).1 + (wds.getD (month - 1) (0, 0)).2
      · rw [if_pos hcap] at h
        exact (Except.noConfusion h)
      · rw [if_neg hcap] at h
        obtain ⟨hca, hcs, had, hai, haw, -, -, hsd, hsi, hsw, -, -⟩ := mkMonthItems_ok_inv h
        refine ⟨hai, hsi, had, hsd, by omega, ?_, ?_,
          fun hw => Option.noConfusion hw, ?_⟩
        · rw [haw]; exact hca
        · rw [hsw]; exact hcs
        · intro wds' hw
          obtain rfl := Option.some.inj hw
          exact ⟨haw, hsw⟩

/-- A month iteration succeeds when the month has a nonzero working-day
count and its override pair (if any) passes the capacity check. -/
theorem monthSchedule_ok (cal : ℕ → ℕ → Month) (hol : HolidaysData) (year : ℕ)
    (advance_day : ℤ) (mode : Mode) (amount : ℚ) (wdo : Option (List (ℤ × ℤ)))
    (month : ℕ)
    (h0 : (cal year month).workingDays ≠ 0)
    (hov : wdo = none ∨ ∃ wds, wdo = some wds ∧
      (wds.getD (month - 1) (0, 0)).1 + (wds.getD (month - 1) (0, 0)).2 ≤
        (cal year month).workingDays) :
    ∃ p, monthSchedule cal hol year advance_day mode amount wdo month = .ok p := by
  rcases hov with rfl | ⟨wds, rfl, hcap⟩
  · rw [monthSchedule_none]
    exact mkMonthItems_ok h0
  · rw [monthSchedule_some, if_neg (by omega)]
    exact mkMonthItems_ok h0

/-- A month iteration never raises a `ValueError` when its override pair
(if any) passes the capacity check. -/
theorem monthSchedule_not_validation {cal : ℕ → ℕ → Month} {hol : HolidaysData}
    {year : ℕ} {advance_day : ℤ} {mode : Mode} {amount : ℚ}
    {wdo : Option (List (ℤ × ℤ))} {month : ℕ}
    (hov : wdo = none ∨ ∃ wds, wdo = some wds ∧
      (wds.getD (month - 1) (0, 0)).1 + (wds.getD (month - 1) (0, 0)).2 ≤
        (cal year month).workingDays) :
    isValidationError (monthSchedule cal hol year advance_day mode amount wdo month) =
      false := by
  rcases hov with rfl | ⟨wds, rfl, hcap⟩
  · rw [monthSchedule_none]
    exact mkMonthItems_not_validation
  · rw [monthSchedule_some, if_neg (by omega)]
    exact mkMonthItems_not_validation

/-- A month iteration whose override pair fails the capacity check raises
the capacity `ValueError`. -/
theorem monthSchedule_capacity_error {cal : ℕ → ℕ → Month} {hol : HolidaysData}
    {year : ℕ} {advance_day : ℤ} {mode : Mode} {amount : ℚ}
    {wds : List (ℤ × ℤ)} {month : ℕ}
    (hcap : (cal year month).workingDays <
      (wds.getD (month - 1) (0, 0)).1 + (wds.getD (month - 1) (0, 0)).2) :
    monthSchedule cal hol year advance_day mode amount (some wds) month =
      .error (.valueError (capacityErrorMsg month
        ((wds.getD (month - 1) (0, 0)).1 + (wds.getD (month - 1) (0, 0)).2)
        (cal year month).workingDays)) := by
  rw [monthSchedule_some, if_pos hcap]

/-- Inversion for the month loop: a successful run has `2 * |months|`
items, and the pair at positions `2i, 2i + 1` is the successful
iteration of the `i`-th month of the list. -/
theorem scheduleMonths_ok_inv {cal : ℕ → ℕ → Month} {hol : HolidaysData} {year : ℕ}
    {advance_day : ℤ} {mode : Mode} {amount : ℚ} {wdo : Option (List (ℤ × ℤ))} :
    ∀ (ms : List ℕ) (l : List PaydayScheduleItem),
      scheduleMonths cal hol year advance_day mode amount wdo ms = .ok l →
      l.length = 2 * ms.length ∧
      ∀ i : ℕ, i < ms.length →
        ∃ a s, monthSchedule cal hol year advance_day mode amount wdo (ms.getD i 0) =
            .ok (a, s) ∧
          l.getD (2 * i) default = a ∧ l.getD (2 * i + 1) default = s := by
  intro ms
  induction ms with
  | nil =>
      intro l h
      obtain rfl : List.nil = l := Except.ok.inj h
      exact ⟨rfl, fun i hi => by simp at hi⟩
  | cons m ms ih =>
      intro l h
      unfold scheduleMonths at h
      cases hm : monthSchedule cal hol year advance_day mode amount wdo m with
      | error e => simp only [hm] at h; exact (Except.noConfusion h)
      | ok p =>
          obtain ⟨a, s⟩ := p
          simp only [hm] at h
          cases hrest : scheduleMonths cal hol year advance_day mode amount wdo ms with
          | error e => simp only [hrest] at h; exact (Except.noConfusion h)
          | ok rest =>
              simp only [hrest] at h
              obtain rfl : a :: s :: rest = l := Except.ok.inj h
              obtain ⟨hlen, hidx⟩ := ih rest hrest
              refine ⟨by simp only [List.length_cons, hlen]; omega, ?_⟩
              intro i hi
              cases i with
              | zero => exact ⟨a, s, hm, rfl, rfl⟩
              | succ j =>
                  obtain ⟨a', s', hj, ha', hs'⟩ := hidx j (by simpa using hi)
                  refine ⟨a', s', by simpa using hj, ?_, ?_⟩
                  · rw [show 2 * (j + 1) = (2 * j + 1) + 1 by ring]
                    simpa using ha'
                  · rw [show 2 * (j + 1) + 1 = (2 * j + 1 + 1) + 1 by ring]
                    simpa using hs'

/-- The month loop succeeds when every iteration does. -/
theorem scheduleMonths_ok (cal : ℕ → ℕ → Month) (hol : HolidaysData) (year : ℕ)
    (advance_day : ℤ) (mode : Mode) (amount : ℚ) (wdo : Option (List (ℤ × ℤ))) :
    ∀ ms : List ℕ,
      (∀ m ∈ ms, ∃ p, monthSchedule cal hol year advance_day mode amount wdo m = .ok p) →
      ∃ l, scheduleMonths cal hol year advance_day mode amount wdo ms = .ok l := by
  intro ms
  induction ms with
  | nil => exact fun _ => ⟨[], rfl⟩
  | cons m ms ih =>
      intro hall
      obtain ⟨⟨a, s⟩, hm⟩ := hall m (List.mem_cons_self m ms)
      obtain ⟨rest, hrest⟩ := ih fun m' hm' => hall m' (List.mem_cons_of_mem m hm')
      refine ⟨a :: s :: rest, ?_⟩
      unfold scheduleMonths
      rw [hm, hrest]

/-- Every item of a successful run comes from its month's iteration. -/
theorem scheduleMonths_mem_inv {cal : ℕ → ℕ → Month} {hol : HolidaysData} {year : ℕ}
    {advance_day : ℤ} {mode : Mode} {amount : ℚ} {wdo : Option (List (ℤ × ℤ))} :
    ∀ (ms : List ℕ) (l : List PaydayScheduleItem),
      scheduleMonths cal hol year advance_day mode amount wdo ms = .ok l →
      ∀ x ∈ l, ∃ m ∈ ms, ∃ a s,
        monthSchedule cal hol year advance_day mode amount wdo m = .ok (a, s) ∧
        (x = a ∨ x = s) := by
  intro ms
  induction ms with
  | nil =>
      intro l h
      obtain rfl : List.nil = l := Except.ok.inj h
      intro x hx
      exact absurd hx (List.not_mem_nil x)
  | cons m ms ih =>
      intro l h
      unfold scheduleMonths at h
      cases hm : monthSchedule cal hol year advance_day mode amount wdo m with
      | error e => simp only [hm] at h; exact (Except.noConfusion h)
      | ok p =>
          obtain ⟨a, s⟩ := p
          simp only [hm] at h
          cases hrest : scheduleMonths cal hol year advance_day mode amount wdo ms with
          | error e => simp only [hrest] at h; exact (Except.noConfusion h)
          | ok rest =>
              simp only [hrest] at h
              obtain rfl : a :: s :: rest = l := Except.ok.inj h
              intro x hx
              rcases List.mem_cons.mp hx with hxa | hx2
              · exact ⟨m, List.mem_cons_self m ms, a, s, hm, Or.inl hxa⟩
              · rcases List.mem_cons.mp hx2 with hxs | hx3
                · exact ⟨m, List.mem_cons_self m ms, a, s, hm, Or.inr hxs⟩
                · obtain ⟨m', hm', a', s', h', hx'⟩ := ih rest hrest x hx3
                  exact ⟨m', List.mem_cons_of_mem m hm', a', s', h', hx'⟩

/-- The month loop never raises a `ValueError` when no iteration does. -/
theorem scheduleMonths_not_validation {cal : ℕ → ℕ → Month} {hol : HolidaysData}
    {year : ℕ} {advance_day : ℤ} {mode : Mode} {amount : ℚ}
    {wdo : Option (List (ℤ × ℤ))} :
    ∀ ms : List ℕ,
      (∀ m ∈ ms,
        isValidationError (monthSchedule cal hol year advance_day mode amount wdo m) =
          false) →
      isValidationError (scheduleMonths cal hol year advance_day mode amount wdo ms) =
        false := by
  intro ms
  induction ms with
  | nil => exact fun _ => rfl
  | cons m ms ih =>
      intro hall
      unfold scheduleMonths
      cases hm : monthSchedule cal hol year advance_day mode amount wdo m with
      | error e =>
          have hv := hall m (List.mem_cons_self m ms)
          rw [hm] at hv
          cases e with
          | valueError msg => exact absurd hv (by simp [isValidationError])
          | zeroDivisionError => rfl
      | ok p =>
          obtain ⟨a, s⟩ := p
          cases hrest : scheduleMonths cal hol year advance_day mode amount wdo ms with
          | error e =>
              have hv := ih fun m' hm' => hall m' (List.mem_cons_of_mem m hm')
              rw [hrest] at hv
              cases e with
              | valueError msg => exact absurd hv (by simp [isValidationError])
              | zeroDivisionError => rfl
          | ok rest => rfl

/-- When every month has working days but some month's override pair
violates the capacity check, the loop raises a `ValueError`. -/
theorem scheduleMonths_violation {cal : ℕ → ℕ → Month} {hol : HolidaysData}
    {year : ℕ} {advance_day : ℤ} {mode : Mode} {amount : ℚ} {wds : List (ℤ × ℤ)} :
    ∀ ms : List ℕ,
      (∀ m ∈ ms, (cal year m).workingDays ≠ 0) →
      (∃ m ∈ ms, (cal year m).workingDays <
        (wds.getD (m - 1) (0, 0)).1 + (wds.getD (m - 1) (0, 0)).2) →
      isValidationError
        (scheduleMonths cal hol year advance_day mode amount (some wds) ms) = true := by
  intro ms
  induction ms with
  | nil =>
      rintro - ⟨m, hm, -⟩
      exact absurd hm (List.not_mem_nil m)
  | cons m ms ih =>
      rintro hwd ⟨mv, hmv, hviol⟩
      unfold scheduleMonths
      by_cases hcap : (cal year m).workingDays <
          (wds.getD (m - 1) (0, 0)).1 + (wds.getD (m - 1) (0, 0)).2
      · rw [monthSchedule_capacity_error hcap]
        rfl
      · obtain ⟨⟨a, s⟩, hm'⟩ := monthSchedule_ok cal hol year advance_day mode amount
          (some wds) m (hwd m (List.mem_cons_self m ms))
          (Or.inr ⟨wds, rfl, by omega⟩)
        rw [hm']
        have hmv' : mv ∈ ms := by
          rcases List.mem_cons.mp hmv with rfl | hmm
          · exact absurd hviol hcap
          · exact hmm
        have hrec := ih (fun m' hm'' => hwd m' (List.mem_cons_of_mem m hm''))
          ⟨mv, hmv', hviol⟩
        cases hrest : scheduleMonths cal hol year advance_day mode amount (some wds) ms with
        | error e =>
            rw [hrest] at hrec
            cases e with
            | valueError msg => rfl
            | zeroDivisionError => exact absurd hrec (by simp [isValidationError])
        | ok rest =>
            rw [hrest] at hrec
            exact absurd hrec (by simp [isValidationError])

/-- The traced loop computes the same schedule as the plain loop. -/
theorem scheduleMonthsTraced_fst {cal : ℕ → ℕ → Month} {hol : HolidaysData}
    {year : ℕ} {advance_day : ℤ} {mode : Mode} {amount : ℚ}
    {wdo : Option (List (ℤ × ℤ))} :
    ∀ ms : List ℕ,
      (scheduleMonthsTraced cal hol year advance_day mode amount wdo ms).1 =
        scheduleMonths cal hol year advance_day mode amount wdo ms := by
  intro ms
  induction ms with
  | nil => rfl
  | cons m ms ih =>
      simp only [scheduleMonthsTraced, scheduleMonths, monthSchedule]
      cases hm : monthSalaries cal year mode amount wdo m
          (monthDates cal hol year advance_day m) with
      | error e => simp only [hm]
      | ok p =>
          obtain ⟨a, s⟩ := p
          simp only [hm]
          rw [← ih]
          cases hrest : scheduleMonthsTraced cal hol year advance_day mode amount wdo ms with
          | mk r evs =>
              simp only [hrest]
              cases r <;> rfl

/-- Unfolding `get_payday_schedule` with no override list. -/
theorem get_payday_schedule_none (cal : ℕ → ℕ → Month) (hol : HolidaysData) (year : ℕ)
    (advance_day : ℤ) (mode : Mode) (amount : ℚ) :
    get_payday_schedule cal hol year advance_day mode amount none =
      scheduleMonths cal hol year advance_day mode amount none (List.range' 1 12) := rfl

/-- Unfolding `get_payday_schedule` with an override list: the length
check precedes the loop. -/
theorem get_payday_schedule_some (cal : ℕ → ℕ → Month) (hol : HolidaysData) (year : ℕ)
    (advance_day : ℤ) (mode : Mode) (amount : ℚ) (wds : List (ℤ × ℤ)) :
    get_payday_schedule cal hol year advance_day mode amount (some wds) =
      if wds.length ≠ 12 then .error (.valueError lengthErrorMsg)
      else scheduleMonths cal hol year advance_day mode amount (some wds)
        (List.range' 1 12) := rfl

/-- Any successful `get_payday_schedule` call is a successful run of the
month loop over `[1, …, 12]`. -/
theorem get_payday_schedule_ok_inv {cal : ℕ → ℕ → Month} {hol : HolidaysData}
    {year : ℕ} {advance_day : ℤ} {mode : Mode} {amount : ℚ}
    {working_days : Option (List (ℤ × ℤ))} {l : List PaydayScheduleItem}
    (hok : get_payday_schedule cal hol year advance_day mode amount working_days = .ok l) :
    scheduleMonths cal hol year advance_day mode amount working_days
      (List.range' 1 12) = .ok l := by
  cases working_days with
  | none => exact hok
  | some wds =>
      rw [get_payday_schedule_some] at hok
      by_cases hl : wds.length ≠ 12
      · rw [if_pos hl] at hok
        exact (Except.noConfusion hok)
      · rw [if_neg hl] at hok
        exact hok

/-- Membership in the scheduler's month list is exactly `1 ≤ m ≤ 12`. -/
theorem mem_monthList {m : ℕ} : m ∈ List.range' 1 12 ↔ 1 ≤ m ∧ m ≤ 12 := by
  rw [show List.range' 1 12 = [1, 2, 3, 4, 5, 6, 7, 8, 9, 10, 11, 12] from rfl]
  simp only [List.mem_cons, List.not_mem_nil, or_false]
  omega

/-- The `i`-th month of the scheduler's month list is `i + 1`. -/
theorem monthList_getD {i : ℕ} (hi : i < 12) : (List.range' 1 12).getD i 0 = i + 1 := by
  interval_cases i <;> rfl

/-- The scheduler's month list has twelve entries. -/
theorem monthList_length : (List.range' 1 12).length = 12 := rfl

/-! ## Claim theorems -/

/-- C5: for every month, year, days_worked and amount, and in both modes,
the `SalaryResult` returned by `calculate_salary` satisfies
`tax = before_tax * 0.13` and `after_tax = before_tax - tax` (exactly, in
the rational model — hence within floating tolerance in the source). -/
theorem C5_tax_identities (cal : ℕ → ℕ → Month) (month year : ℕ)
    (days_worked : ℤ) (amount : ℚ) (mode : Mode) (r : SalaryResult)
    (h : calculate_salary cal month year days_worked amount mode = .ok r) :
    r.tax = r.before_tax * TAX_RATE ∧ r.after_tax = r.before_tax - r.tax := by
  have h0 := calculate_salary_ok_workingDays h
  cases mode with
  | gross =>
      rw [calculate_salary_gross h0] at h
      obtain rfl := Except.ok.inj h
      exact ⟨rfl, rfl⟩
  | net =>
      rw [calculate_salary_net h0] at h
      obtain rfl := Except.ok.inj h
      refine ⟨rfl, ?_⟩
      dsimp only
      simp only [TAX_RATE]
      ring

/-- Witness for C5 at a concrete input (January 2025, 15 of 17 days,
gross 60000). -/
theorem C5_tax_identities_witness :
    (okValue (calculate_salary (calConst 17) 1 2025 15 60000 .gross)).tax =
      (okValue (calculate_salary (calConst 17) 1 2025 15 60000 .gross)).before_tax *
        TAX_RATE ∧
    (okValue (calculate_salary (calConst 17) 1 2025 15 60000 .gross)).after_tax =
      (okValue (calculate_salary (calConst 17) 1 2025 15 60000 .gross)).before_tax -
        (okValue (calculate_salary (calConst 17) 1 2025 15 60000 .gross)).tax :=
  C5_tax_identities (calConst 17) 1 2025 15 60000 .gross _ rfl

/-- C6 (amended): the net→gross round-trip reproduces the net figure when
`days_worked` is the month's FULL working-day count: feeding the net-mode
`before_tax` back through gross mode over the full month returns exactly
the original net amount.  (For partial months the round-trip scales the
net figure by `days_worked / workingDays`; see the counterexample.) -/
theorem C6_roundtrip_full_month (cal : ℕ → ℕ → Month) (month year : ℕ) (amount : ℚ)
    (hamt : 0 ≤ amount) (r1 r2 : SalaryResult)
    (h1 : calculate_salary cal month year (cal year month).workingDays amount .net = .ok r1)
    (h2 : calculate_salary cal month year (cal year month).workingDays r1.before_tax .gross
      = .ok r2) :
    r2.after_tax = amount ∧ r1.after_tax = amount := by
  have h0 := calculate_salary_ok_workingDays h1
  have h0' : (((cal year month).workingDays : ℤ) : ℚ) ≠ 0 := Int.cast_ne_zero.mpr h0
  rw [calculate_salary_net h0] at h1
  obtain rfl := Except.ok.inj h1
  rw [calculate_salary_gross h0] at h2
  obtain rfl := Except.ok.inj h2
  have hc : amount / (((cal year month).workingDays : ℤ) : ℚ) *
      (((cal year month).workingDays : ℤ) : ℚ) = amount := div_mul_cancel₀ amount h0'
  dsimp only
  rw [hc]
  have hc2 : amount / (1 - TAX_RATE) / (((cal year month).workingDays : ℤ) : ℚ) *
      (((cal year month).workingDays : ℤ) : ℚ) = amount / (1 - TAX_RATE) :=
    div_mul_cancel₀ _ h0'
  rw [hc2]
  constructor
  · simp only [TAX_RATE]
    ring
  · rfl

/-- Witness for C6 at a concrete input (20 working days, net 60000). -/
theorem C6_roundtrip_full_month_witness :
    (okValue (calculate_salary (calConst 20) 1 2025 ((calConst 20) 2025 1).workingDays
        (okValue (calculate_salary (calConst 20) 1 2025 ((calConst 20) 2025 1).workingDays
          60000 .net)).before_tax .gross)).after_tax = 60000 ∧
    (okValue (calculate_salary (calConst 20) 1 2025 ((calConst 20) 2025 1).workingDays
        60000 .net)).after_tax = 60000 :=
  C6_roundtrip_full_month (calConst 20) 1 2025 60000 (by norm_num) _ _ rfl rfl

/-- Counterexample to C6 as stated: over a PARTIAL month (10 of 20 working
days, net target 60000) the net-mode call yields `after_tax = 30000`, but
feeding its `before_tax` back through gross mode over the same 10 days
returns 15000 — off by 15000 from the net-mode figure (and 45000 from the
net target), far beyond the claimed 0.01 tolerance. -/
theorem C6_roundtrip_counterexample :
    (okValue (calculate_salary (calConst 20) 1 2025 10 60000 .net)).after_tax = 30000 ∧
    (okValue (calculate_salary (calConst 20) 1 2025 10
        (okValue (calculate_salary (calConst 20) 1 2025 10 60000 .net)).before_tax
        .gross)).after_tax = 15000 ∧
    ¬ ((30000 - 15000 : ℚ) ≤ 1 / 100) ∧ ¬ ((60000 - 15000 : ℚ) ≤ 1 / 100) := by
  refine ⟨?_, ?_, by norm_num, by norm_num⟩ <;>
    norm_num [okValue, calculate_salary, calConst, TAX_RATE]

/-- C7 (amended): when the month's working-day count is zero,
`calculate_salary` has NO explicit guard; the `amount / work_days`
division itself raises `ZeroDivisionError`, so the call fails (no
infinity/NaN result is produced) but with the bare division error, not a
descriptive validation error. -/
theorem C7_zero_workdays_division_error (cal : ℕ → ℕ → Month) (month year : ℕ)
    (days_worked : ℤ) (amount : ℚ) (mode : Mode)
    (h0 : (cal year month).workingDays = 0) :
    calculate_salary cal month year days_worked amount mode = .error .zeroDivisionError ∧
    isValidationError (calculate_salary cal month year days_worked amount mode) = false := by
  refine ⟨calculate_salary_zero h0, ?_⟩
  rw [calculate_salary_zero h0]
  rfl

/-- Witness for C7 at a concrete input. -/
theorem C7_zero_workdays_witness :
    calculate_salary (calConst 0) 2 2024 5 100 .net = .error .zeroDivisionError ∧
    isValidationError (calculate_salary (calConst 0) 2 2024 5 100 .net) = false :=
  C7_zero_workdays_division_error (calConst 0) 2 2024 5 100 .net rfl

/-- Counterexample to C7 as stated: on a zero-working-day month the call
fails with the bare `ZeroDivisionError` of the division — there is no
explicit guard and no descriptive (`ValueError`-style) error. -/
theorem C7_no_explicit_guard_counterexample :
    calculate_salary (calConst 0) 1 2025 17 60000 .gross = .error .zeroDivisionError ∧
    isValidationError (calculate_salary (calConst 0) 1 2025 17 60000 .gross) = false :=
  ⟨rfl, rfl⟩

/-- C1: with valid inputs (a Python-representable year and advance day, a
calendar with working days in every month, and either no override list or
a valid one), `get_payday_schedule` returns exactly 24 items: for each
month `m` in 1..12 in calendar order, the advance item at position
`2(m-1)` immediately followed by the salary item at position `2(m-1)+1`,
both produced by month `m`'s loop iteration. -/
theorem C1_schedule_shape (cal : ℕ → ℕ → Month) (hol : HolidaysData) (year : ℕ)
    (advance_day : ℤ) (mode : Mode) (amount : ℚ)
    (working_days : Option (List (ℤ × ℤ)))
    (hyear : 1 ≤ year) (hadv : 1 ≤ advance_day)
    (hwd : ∀ m : ℕ, 1 ≤ m → m ≤ 12 → (cal year m).workingDays ≠ 0)
    (hov : working_days = none ∨ ∃ wds, working_days = some wds ∧ wds.length = 12 ∧
      ∀ m : ℕ, 1 ≤ m → m ≤ 12 →
        (wds.getD (m - 1) (0, 0)).1 + (wds.getD (m - 1) (0, 0)).2 ≤
          (cal year m).workingDays) :
    ∃ l, get_payday_schedule cal hol year advance_day mode amount working_days = .ok l ∧
      l.length = 24 ∧
      ∀ m : ℕ, 1 ≤ m → m ≤ 12 →
        ∃ a s, monthSchedule cal hol year advance_day mode amount working_days m =
            .ok (a, s) ∧ a.it_is = .advance ∧ s.it_is = .salary ∧
          l.getD (2 * (m - 1)) default = a ∧ l.getD (2 * (m - 1) + 1) default = s := by
  have hov' : ∀ m : ℕ, 1 ≤ m → m ≤ 12 → working_days = none ∨
      ∃ wds, working_days = some wds ∧
        (wds.getD (m - 1) (0, 0)).1 + (wds.getD (m - 1) (0, 0)).2 ≤
          (cal year m).workingDays := by
    intro m h1 h2
    rcases hov with rfl | ⟨wds, rfl, hlen, hcap⟩
    · exact Or.inl rfl
    · exact Or.inr ⟨wds, rfl, hcap m h1 h2⟩
  obtain ⟨l, hl⟩ := scheduleMonths_ok cal hol year advance_day mode amount working_days
    (List.range' 1 12) (fun m hm => by
      obtain ⟨h1, h2⟩ := mem_monthList.mp hm
      exact monthSchedule_ok cal hol year advance_day mode amount working_days m
        (hwd m h1 h2) (hov' m h1 h2))
  have heq : get_payday_schedule cal hol year advance_day mode amount working_days =
      .ok l := by
    rcases hov with rfl | ⟨wds, rfl, hlen, -⟩
    · exact hl
    · rw [get_payday_schedule_some, if_neg (by omega)]
      exact hl
  obtain ⟨hlen24, hidx⟩ := scheduleMonths_ok_inv _ l hl
  refine ⟨l, heq, by rw [monthList_length] at hlen24; omega, ?_⟩
  intro m h1 h2
  obtain ⟨a, s, hms, ha, hs⟩ := hidx (m - 1) (by rw [monthList_length]; omega)
  rw [monthList_getD (by omega), show m - 1 + 1 = m by omega] at hms
  obtain ⟨hit1, hit2, -⟩ := monthSchedule_ok_inv hms
  exact ⟨a, s, hms, hit1, hit2, ha, hs⟩

/-- Witness for C1 at a concrete input (every month 20 working days, no
holidays, advance day 16, no overrides). -/
theorem C1_schedule_shape_witness :
    ∃ l, get_payday_schedule (calConst 20) (noHolidays 2025) 2025 16 .gross 100 none =
        .ok l ∧
      l.length = 24 ∧
      ∀ m : ℕ, 1 ≤ m → m ≤ 12 →
        ∃ a s, monthSchedule (calConst 20) (noHolidays 2025) 2025 16 .gross 100 none m =
            .ok (a, s) ∧ a.it_is = .advance ∧ s.it_is = .salary ∧
          l.getD (2 * (m - 1)) default = a ∧ l.getD (2 * (m - 1) + 1) default = s :=
  C1_schedule_shape (calConst 20) (noHolidays 2025) 2025 16 .gross 100 none
    (by norm_num) (by norm_num) (fun m h1 h2 => by norm_num [calConst]) (Or.inl rfl)

/-- C2: in every successful schedule, month `m`'s salary-leg item carries
exactly the `calculate_salary` result for month `m` — the ORIGIN month,
not the payment month `m + 1` — so in gross mode its `before_tax` is
`amount / workingDays(m) * working_days`, with month `m`'s working-day
count as the daily-rate denominator. -/
theorem C2_salary_leg_origin_month (cal : ℕ → ℕ → Month) (hol : HolidaysData)
    (year : ℕ) (advance_day : ℤ) (mode : Mode) (amount : ℚ)
    (working_days : Option (List (ℤ × ℤ))) (l : List PaydayScheduleItem)
    (hok : get_payday_schedule cal hol year advance_day mode amount working_days = .ok l)
    (m : ℕ) (h1 : 1 ≤ m) (h2 : m ≤ 12) :
    calculate_salary cal m year (l.getD (2 * (m - 1) + 1) default).working_days amount
        mode = .ok (l.getD (2 * (m - 1) + 1) default).salary ∧
    (mode = .gross → (l.getD (2 * (m - 1) + 1) default).salary.before_tax =
      amount / (((cal year m).workingDays : ℤ) : ℚ) *
        ((l.getD (2 * (m - 1) + 1) default).working_days : ℚ)) := by
  have hl := get_payday_schedule_ok_inv hok
  obtain ⟨-, hidx⟩ := scheduleMonths_ok_inv _ l hl
  obtain ⟨a, s, hms, ha, hs⟩ := hidx (m - 1) (by rw [monthList_length]; omega)
  rw [monthList_getD (by omega), show m - 1 + 1 = m by omega] at hms
  rw [hs]
  have hcs := (monthSchedule_ok_inv hms).2.2.2.2.2.2.1
  refine ⟨hcs, ?_⟩
  rintro rfl
  have h0 := calculate_salary_ok_workingDays hcs
  rw [calculate_salary_gross h0] at hcs
  have hinj := Except.ok.inj hcs
  rw [← hinj]

/-- Witness for C2 at a concrete input (January's salary leg). -/
theorem C2_salary_leg_origin_month_witness :
    calculate_salary (calConst 20) 1 2025
        ((okValue (get_payday_schedule (calConst 20) (noHolidays 2025) 2025 16 .gross 100
          none)).getD 1 default).working_days 100 .gross =
      .ok ((okValue (get_payday_schedule (calConst 20) (noHolidays 2025) 2025 16 .gross
          100 none)).getD 1 default).salary ∧
    (Mode.gross = .gross →
      ((okValue (get_payday_schedule (calConst 20) (noHolidays 2025) 2025 16 .gross 100
          none)).getD 1 default).salary.before_tax =
        100 / ((((calConst 20) 2025 1).workingDays : ℤ) : ℚ) *
          (((okValue (get_payday_schedule (calConst 20) (noHolidays 2025) 2025 16 .gross
            100 none)).getD 1 default).working_days : ℚ)) :=
  C2_salary_leg_origin_month (calConst 20) (noHolidays 2025) 2025 16 .gross 100 none _
    rfl 1 (by norm_num) (by norm_num)

/-- C8: in every successful schedule — default split or validated
override — each month's advance and salary working-day counts sum to at
most the month's calendar working-day total. -/
theorem C8_capacity_invariant (cal : ℕ → ℕ → Month) (hol : HolidaysData) (year : ℕ)
    (advance_day : ℤ) (mode : Mode) (amount : ℚ)
    (working_days : Option (List (ℤ × ℤ))) (l : List PaydayScheduleItem)
    (hok : get_payday_schedule cal hol year advance_day mode amount working_days = .ok l)
    (m : ℕ) (h1 : 1 ≤ m) (h2 : m ≤ 12) :
    (l.getD (2 * (m - 1)) default).working_days +
      (l.getD (2 * (m - 1) + 1) default).working_days ≤ (cal year m).workingDays := by
  have hl := get_payday_schedule_ok_inv hok
  obtain ⟨-, hidx⟩ := scheduleMonths_ok_inv _ l hl
  obtain ⟨a, s, hms, ha, hs⟩ := hidx (m - 1) (by rw [monthList_length]; omega)
  rw [monthList_getD (by omega), show m - 1 + 1 = m by omega] at hms
  rw [ha, hs]
  exact (monthSchedule_ok_inv hms).2.2.2.2.1

/-- Witness for C8 at a concrete input (January's pair). -/
theorem C8_capacity_invariant_witness :
    ((okValue (get_payday_schedule (calConst 20) (noHolidays 2025) 2025 16 .gross 100
        none)).getD 0 default).working_days +
      ((okValue (get_payday_schedule (calConst 20) (noHolidays 2025) 2025 16 .gross 100
        none)).getD 1 default).working_days ≤ ((calConst 20) 2025 1).workingDays :=
  C8_capacity_invariant (calConst 20) (noHolidays 2025) 2025 16 .gross 100 none _ rfl 1
    (by norm_num) (by norm_num)

/-- C4 (amended): December's salary-leg item (position 23) has its NOMINAL
payment date in January of `year + 1`, and its actual payment date also
falls in January of `year + 1` PROVIDED January 1 of `year + 1` is a
working day (not a weekend and not in the fetched holiday list).  When it
is not, the backward weekend/holiday adjustment can cross the year
boundary and land in late December of `year` (see the counterexample). -/
theorem C4_december_salary_january (cal : ℕ → ℕ → Month) (hol : HolidaysData)
    (year : ℕ) (advance_day : ℤ) (mode : Mode) (amount : ℚ)
    (working_days : Option (List (ℤ × ℤ))) (l : List PaydayScheduleItem)
    (hyear : 1 ≤ year)
    (hok : get_payday_schedule cal hol year advance_day mode amount working_days = .ok l)
    (hjan : isWorkingDay hol.holidays (toOrdinal (year + 1) 1 1) = true) :
    (l.getD 23 default).it_is = .salary ∧
    toOrdinal (year + 1) 1 1 ≤ (l.getD 23 default).date ∧
    (l.getD 23 default).date ≤ toOrdinal (year + 1) 1 31 := by
  have hl := get_payday_schedule_ok_inv hok
  obtain ⟨-, hidx⟩ := scheduleMonths_ok_inv _ l hl
  obtain ⟨a, s, hms, ha, hs⟩ := hidx 11 (by rw [monthList_length]; omega)
  rw [show (List.range' 1 12).getD 11 0 = 12 from rfl] at hms
  have hinv := monthSchedule_ok_inv hms
  have hs23 : l.getD 23 default = s := hs
  have hsdate : s.date = (monthDates cal hol year advance_day 12).salary_date :=
    hinv.2.2.2.1
  have hdate' : s.date = get_previous_working_day
      (toOrdinal (year + 1) 1 (min (if advance_day - 15 < 1 then 1 else advance_day - 15)
        31)) hol := by
    rw [hsdate]
    rfl
  have hd1 : (1 : ℤ) ≤ min (if advance_day - 15 < 1 then 1 else advance_day - 15) 31 := by
    split_ifs <;> omega
  have hd31 : min (if advance_day - 15 < 1 then 1 else advance_day - 15) 31 ≤ 31 := by
    omega
  obtain ⟨hwork, hle, hmax, -⟩ := get_previous_working_day_spec
    (toOrdinal (year + 1) 1 (min (if advance_day - 15 < 1 then 1 else advance_day - 15)
      31)) hol
  refine ⟨by rw [hs23]; exact hinv.2.1, ?_, ?_⟩
  · rw [hs23, hdate']
    by_contra hlt
    push_neg at hlt
    have h1le : toOrdinal (year + 1) 1 1 ≤ toOrdinal (year + 1) 1
        (min (if advance_day - 15 < 1 then 1 else advance_day - 15) 31) := by
      unfold toOrdinal
      omega
    have hfalse := hmax (toOrdinal (year + 1) 1 1) hlt h1le
    rw [hjan] at hfalse
    exact Bool.noConfusion hfalse
  · rw [hs23, hdate']
    refine le_trans hle ?_
    unfold toOrdinal
    omega

/-- Witness for C4 at a concrete input: for year 2025, January 1 2026 is a
Thursday and not in the (empty) holiday list, so December's salary leg
lands in January 2026. -/
theorem C4_december_salary_january_witness :
    ((okValue (get_payday_schedule (calConst 20) (noHolidays 2025) 2025 16 .gross 100
        none)).getD 23 default).it_is = .salary ∧
    toOrdinal 2026 1 1 ≤ ((okValue (get_payday_schedule (calConst 20) (noHolidays 2025)
        2025 16 .gross 100 none)).getD 23 default).date ∧
    ((okValue (get_payday_schedule (calConst 20) (noHolidays 2025) 2025 16 .gross 100
        none)).getD 23 default).date ≤ toOrdinal 2026 1 31 :=
  C4_december_salary_january (calConst 20) (noHolidays 2025) 2025 16 .gross 100 none _
    (by norm_num) rfl (by decide)

/-- Counterexample to C4 as stated: for year 2027 (with the holiday list
fetched for 2027, which cannot contain any 2028 date), January 1 2028 is
a Saturday, so December 2027's salary leg is adjusted backward to Friday,
December 31 2027 — NOT a date in January of `year + 1`. -/
theorem C4_december_salary_counterexample :
    get_payday_schedule (calConst 20) (noHolidays 2027) 2027 16 .gross 100 none =
      .ok (okValue (get_payday_schedule (calConst 20) (noHolidays 2027) 2027 16 .gross
        100 none)) ∧
    ((okValue (get_payday_schedule (calConst 20) (noHolidays 2027) 2027 16 .gross 100
        none)).getD 23 default).it_is = .salary ∧
    ((okValue (get_payday_schedule (calConst 20) (noHolidays 2027) 2027 16 .gross 100
        none)).getD 23 default).date = toOrdinal 2027 12 31 ∧
    toOrdinal 2027 12 31 < toOrdinal 2028 1 1 := by
  exact ⟨rfl, rfl, by decide, by decide⟩

/-- Unfolding `get_payday_schedule_traced` with an override list. -/
theorem get_payday_schedule_traced_some (cal : ℕ → ℕ → Month) (hol : HolidaysData)
    (year : ℕ) (advance_day : ℤ) (mode : Mode) (amount : ℚ) (wds : List (ℤ × ℤ)) :
    get_payday_schedule_traced cal hol year advance_day mode amount (some wds) =
      if wds.length ≠ 12 then (.error (.valueError lengthErrorMsg), [])
      else scheduleMonthsTraced cal hol year advance_day mode amount (some wds)
        (List.range' 1 12) := rfl

/-- The `max_advance_working_days` of a month is the first-half
working-day count. -/
theorem monthDates_max_advance (cal : ℕ → ℕ → Month) (hol : HolidaysData) (year : ℕ)
    (advance_day : ℤ) (month : ℕ) :
    (monthDates cal hol year advance_day month).max_advance_working_days =
      countFirstHalfWorkingDays hol.holidays year month := rfl

/-- `getD` on a list of componentwise-nonnegative pairs is nonnegative
(the default `(0, 0)` included). -/
theorem getD_nonneg_of_forall {wds : List (ℤ × ℤ)}
    (h : ∀ p ∈ wds, 0 ≤ p.1 ∧ 0 ≤ p.2) (i : ℕ) :
    0 ≤ (wds.getD i (0, 0)).1 ∧ 0 ≤ (wds.getD i (0, 0)).2 := by
  rcases lt_or_ge i wds.length with hi | hi
  · have hmem : wds.getD i (0, 0) ∈ wds := by
      rw [List.getD_eq_getElem wds (0, 0) hi]
      exact List.getElem_mem hi
    exact h _ hmem
  · rw [List.getD_eq_default wds (0, 0) hi]
    exact ⟨le_refl 0, le_refl 0⟩

/-- Every successful `calculate_salary` result is componentwise
nonnegative when the amount, the days worked and the month's working-day
count are nonnegative. -/
theorem calculate_salary_nonneg (cal : ℕ → ℕ → Month) (month year : ℕ)
    (days_worked : ℤ) (amount : ℚ) (mode : Mode) (r : SalaryResult)
    (hamt : 0 ≤ amount) (hdays : 0 ≤ days_worked)
    (hwd : 0 ≤ (cal year month).workingDays)
    (h : calculate_salary cal month year days_worked amount mode = .ok r) :
    0 ≤ r.before_tax ∧ 0 ≤ r.tax ∧ 0 ≤ r.after_tax := by
  have h0 := calculate_salary_ok_workingDays h
  have hwc : (0 : ℚ) ≤ (((cal year month).workingDays : ℤ) : ℚ) := by
    exact_mod_cast hwd
  have hdc : (0 : ℚ) ≤ ((days_worked : ℤ) : ℚ) := by exact_mod_cast hdays
  have hp : 0 ≤ amount / (((cal year month).workingDays : ℤ) : ℚ) *
      ((days_worked : ℤ) : ℚ) :=
    mul_nonneg (div_nonneg hamt hwc) hdc
  cases mode with
  | gross =>
      rw [calculate_salary_gross h0] at h
      obtain rfl := Except.ok.inj h
      refine ⟨hp, mul_nonneg hp (by norm_num [TAX_RATE]), ?_⟩
      dsimp only
      have hrw : amount / (((cal year month).workingDays : ℤ) : ℚ) *
          ((days_worked : ℤ) : ℚ) -
          amount / (((cal year month).workingDays : ℤ) : ℚ) *
          ((days_worked : ℤ) : ℚ) * TAX_RATE =
          amount / (((cal year month).workingDays : ℤ) : ℚ) *
          ((days_worked : ℤ) : ℚ) * (1 - TAX_RATE) := by ring
      rw [hrw]
      exact mul_nonneg hp (by norm_num [TAX_RATE])
  | net =>
      rw [calculate_salary_net h0] at h
      obtain rfl := Except.ok.inj h
      have hb : 0 ≤ amount / (((cal year month).workingDays : ℤ) : ℚ) *
          ((days_worked : ℤ) : ℚ) / (1 - TAX_RATE) :=
        div_nonneg hp (by norm_num [TAX_RATE])
      exact ⟨hb, mul_nonneg hb (by norm_num [TAX_RATE]), hp⟩

/-- C9 (amended): all three `SalaryResult` components are nonnegative for
a nonnegative amount PROVIDED the working-day inputs are nonnegative:
for direct `calculate_salary` calls, nonnegative `days_worked` (and
calendar count); for schedules, a calendar consistent with the holiday
data (each month's first-half working-day count at most its total) and —
when an override list is supplied — entrywise-nonnegative overrides.
(The override validation does NOT enforce nonnegativity: a negative
entry passes the capacity check and produces negative amounts; see the
counterexample.) -/
theorem C9_salary_nonneg :
    (∀ (cal : ℕ → ℕ → Month) (month year : ℕ) (days_worked : ℤ) (amount : ℚ)
        (mode : Mode) (r : SalaryResult),
      0 ≤ amount → 0 ≤ days_worked → 0 ≤ (cal year month).workingDays →
      calculate_salary cal month year days_worked amount mode = .ok r →
      0 ≤ r.before_tax ∧ 0 ≤ r.tax ∧ 0 ≤ r.after_tax) ∧
    (∀ (cal : ℕ → ℕ → Month) (hol : HolidaysData) (year : ℕ) (advance_day : ℤ)
        (mode : Mode) (amount : ℚ) (wdo : Option (List (ℤ × ℤ)))
        (l : List PaydayScheduleItem),
      0 ≤ amount →
      (∀ m : ℕ, 1 ≤ m → m ≤ 12 →
        (countFirstHalfWorkingDays hol.holidays year m : ℤ) ≤ (cal year m).workingDays) →
      (wdo = none ∨ ∃ wds, wdo = some wds ∧ ∀ p ∈ wds, 0 ≤ p.1 ∧ 0 ≤ p.2) →
      get_payday_schedule cal hol year advance_day mode amount wdo = .ok l →
      ∀ x ∈ l, 0 ≤ x.salary.before_tax ∧ 0 ≤ x.salary.tax ∧ 0 ≤ x.salary.after_tax) := by
  constructor
  · intro cal month year days_worked amount mode r hamt hdays hwd h
    exact calculate_salary_nonneg cal month year days_worked amount mode r hamt hdays hwd h
  · intro cal hol year advance_day mode amount wdo l hamt hcons hov hok x hx
    have hl := get_payday_schedule_ok_inv hok
    obtain ⟨m, hm, a, s, hms, hxas⟩ := scheduleMonths_mem_inv _ l hl x hx
    obtain ⟨h1, h2⟩ := mem_monthList.mp hm
    have hinv := monthSchedule_ok_inv hms
    have hwd0 : 0 ≤ (cal year m).workingDays :=
      le_trans (Int.natCast_nonneg _) (hcons m h1 h2)
    have hdx : 0 ≤ a.working_days ∧ 0 ≤ s.working_days := by
      rcases hov with rfl | ⟨wds, rfl, hpos⟩
      · obtain ⟨haw, hsw⟩ := hinv.2.2.2.2.2.2.2.1 rfl
        rw [haw, hsw, monthDates_max_salary, monthDates_max_advance]
        exact ⟨Int.natCast_nonneg _, by have := hcons m h1 h2; omega⟩
      · obtain ⟨haw, hsw⟩ := hinv.2.2.2.2.2.2.2.2 wds rfl
        rw [haw, hsw]
        exact getD_nonneg_of_forall hpos (m - 1)
    rcases hxas with rfl | rfl
    · exact calculate_salary_nonneg cal m year x.working_days amount mode x.salary hamt
        hdx.1 hwd0 hinv.2.2.2.2.2.1
    · exact calculate_salary_nonneg cal m year x.working_days amount mode x.salary hamt
        hdx.2 hwd0 hinv.2.2.2.2.2.2.1

/-- Witness for C9 at a concrete input. -/
theorem C9_salary_nonneg_witness :
    0 ≤ (okValue (calculate_salary (calConst 20) 1 2025 10 60000 .gross)).before_tax ∧
    0 ≤ (okValue (calculate_salary (calConst 20) 1 2025 10 60000 .gross)).tax ∧
    0 ≤ (okValue (calculate_salary (calConst 20) 1 2025 10 60000 .gross)).after_tax :=
  C9_salary_nonneg.1 (calConst 20) 1 2025 10 60000 .gross _ (by norm_num) (by norm_num)
    (by norm_num [calConst]) rfl

/-- An override list whose January entry is negative: it passes the
validation (its sum does not exceed the capacity). -/
def negOverride : List (ℤ × ℤ) :=
  [(-1, 0), (0, 0), (0, 0), (0, 0), (0, 0), (0, 0), (0, 0), (0, 0), (0, 0), (0, 0),
    (0, 0), (0, 0)]

/-- Counterexample to C9 as stated: the override list `[(-1, 0), …]`
passes validation (−1 + 0 ≤ 20), the schedule is returned, and January's
advance item carries `working_days = −1` and a NEGATIVE `before_tax`. -/
theorem C9_salary_nonneg_counterexample :
    get_payday_schedule (calConst 20) (noHolidays 2025) 2025 16 .gross 100
        (some negOverride) =
      .ok (okValue (get_payday_schedule (calConst 20) (noHolidays 2025) 2025 16 .gross
        100 (some negOverride))) ∧
    ((okValue (get_payday_schedule (calConst 20) (noHolidays 2025) 2025 16 .gross 100
        (some negOverride))).getD 0 default).working_days = -1 ∧
    ((okValue (get_payday_schedule (calConst 20) (noHolidays 2025) 2025 16 .gross 100
        (some negOverride))).getD 0 default).salary.before_tax < 0 := by
  refine ⟨rfl, rfl, ?_⟩
  have h : ((okValue (get_payday_schedule (calConst 20) (noHolidays 2025) 2025 16 .gross
      100 (some negOverride))).getD 0 default).salary.before_tax =
      100 / ((20 : ℤ) : ℚ) * ((-1 : ℤ) : ℚ) := rfl
  rw [h]
  push_cast
  norm_num

/-- C3 (amended): the override length check fires before the loop (empty
trace), a valid-or-absent override list never produces a validation
error, any returned schedule is complete (24 items — failure is atomic,
no partial schedules), and a capacity-violating override list produces a
validation error — raised from inside the month loop, not before all
computation (see the counterexample's trace). -/
theorem C3_override_validation :
    (∀ (cal : ℕ → ℕ → Month) (hol : HolidaysData) (year : ℕ) (advance_day : ℤ)
        (mode : Mode) (amount : ℚ) (wds : List (ℤ × ℤ)), wds.length ≠ 12 →
      get_payday_schedule cal hol year advance_day mode amount (some wds) =
          .error (.valueError lengthErrorMsg) ∧
        get_payday_schedule_traced cal hol year advance_day mode amount (some wds) =
          (.error (.valueError lengthErrorMsg), [])) ∧
    (∀ (cal : ℕ → ℕ → Month) (hol : HolidaysData) (year : ℕ) (advance_day : ℤ)
        (mode : Mode) (amount : ℚ) (wdo : Option (List (ℤ × ℤ))),
      (wdo = none ∨ ∃ wds, wdo = some wds ∧ wds.length = 12 ∧
        ∀ m : ℕ, 1 ≤ m → m ≤ 12 →
          (wds.getD (m - 1) (0, 0)).1 + (wds.getD (m - 1) (0, 0)).2 ≤
            (cal year m).workingDays) →
      isValidationError (get_payday_schedule cal hol year advance_day mode amount wdo) =
        false) ∧
    (∀ (cal : ℕ → ℕ → Month) (hol : HolidaysData) (year : ℕ) (advance_day : ℤ)
        (mode : Mode) (amount : ℚ) (wdo : Option (List (ℤ × ℤ)))
        (l : List PaydayScheduleItem),
      get_payday_schedule cal hol year advance_day mode amount wdo = .ok l →
      l.length = 24) ∧
    (∀ (cal : ℕ → ℕ → Month) (hol : HolidaysData) (year : ℕ) (advance_day : ℤ)
        (mode : Mode) (amount : ℚ) (wds : List (ℤ × ℤ)),
      wds.length = 12 →
      (∀ m : ℕ, 1 ≤ m → m ≤ 12 → (cal year m).workingDays ≠ 0) →
      (∃ m : ℕ, 1 ≤ m ∧ m ≤ 12 ∧ (cal year m).workingDays <
        (wds.getD (m - 1) (0, 0)).1 + (wds.getD (m - 1) (0, 0)).2) →
      isValidationError
        (get_payday_schedule cal hol year advance_day mode amount (some wds)) = true) := by
  refine ⟨?_, ?_, ?_, ?_⟩
  · intro cal hol year advance_day mode amount wds hlen
    constructor
    · rw [get_payday_schedule_some, if_pos hlen]
    · rw [get_payday_schedule_traced_some, if_pos hlen]
  · intro cal hol year advance_day mode amount wdo hov
    rcases hov with rfl | ⟨wds, rfl, hlen, hcap⟩
    · rw [get_payday_schedule_none]
      refine scheduleMonths_not_validation _ (fun m hm => ?_)
      exact monthSchedule_not_validation (Or.inl rfl)
    · rw [get_payday_schedule_some, if_neg (by omega)]
      refine scheduleMonths_not_validation _ (fun m hm => ?_)
      obtain ⟨h1, h2⟩ := mem_monthList.mp hm
      exact monthSchedule_not_validation (Or.inr ⟨wds, rfl, hcap m h1 h2⟩)
  · intro cal hol year advance_day mode amount wdo l hok
    have hl := get_payday_schedule_ok_inv hok
    obtain ⟨hlen, -⟩ := scheduleMonths_ok_inv _ l hl
    rw [monthList_length] at hlen
    omega
  · intro cal hol year advance_day mode amount wds hlen hwd hviol
    rw [get_payday_schedule_some, if_neg (by omega)]
    refine scheduleMonths_violation _ (fun m hm => ?_) ?_
    · obtain ⟨h1, h2⟩ := mem_monthList.mp hm
      exact hwd m h1 h2
    · obtain ⟨m, h1, h2, hv⟩ := hviol
      exact ⟨m, mem_monthList.mpr ⟨h1, h2⟩, hv⟩

/-- Witness for C3 at a concrete input (an empty override list). -/
theorem C3_override_validation_witness :
    get_payday_schedule (calConst 20) (noHolidays 2025) 2025 16 .gross 100 (some []) =
        .error (.valueError lengthErrorMsg) ∧
    get_payday_schedule_traced (calConst 20) (noHolidays 2025) 2025 16 .gross 100
        (some []) = (.error (.valueError lengthErrorMsg), []) :=
  C3_override_validation.1 (calConst 20) (noHolidays 2025) 2025 16 .gross 100 []
    (by decide)

/-- An override list violating the capacity check in month 2 only. -/
def overrideViolatingMonth2 : List (ℤ × ℤ) :=
  [(5, 5), (25, 0), (5, 5), (5, 5), (5, 5), (5, 5), (5, 5), (5, 5), (5, 5), (5, 5),
    (5, 5), (5, 5)]

/-- Counterexample to C3 as stated: with an override list that violates
capacity only in month 2, the call does raise a validation error — but
its trace shows month 1's dates AND salaries and month 2's dates were
computed BEFORE the error, so the error is not raised "before any
date/salary computation". -/
theorem C3_override_validation_counterexample :
    isValidationError (get_payday_schedule (calConst 20) (noHolidays 2025) 2025 16
      .gross 100 (some overrideViolatingMonth2)) = true ∧
    (get_payday_schedule_traced (calConst 20) (noHolidays 2025) 2025 16 .gross 100
        (some overrideViolatingMonth2)).2 =
      [.datesComputed 1, .salariesComputed 1, .datesComputed 2] :=
  ⟨rfl, rfl⟩

/-- C10: for every start date and finite holiday list,
`get_previous_working_day` terminates — any fuel at least
`7 * (|holidays| + 1)` gives the same result, so the unbounded source
loop stops there — and returns the latest day `≤` the start that is
neither a Saturday/Sunday nor in the holiday list. -/
theorem C10_previous_working_day_spec (d : ℤ) (hol : HolidaysData) :
    isWorkingDay hol.holidays (get_previous_working_day d hol) = true ∧
    get_previous_working_day d hol ≤ d ∧
    (∀ e : ℤ, get_previous_working_day d hol < e → e ≤ d →
      isWorkingDay hol.holidays e = false) ∧
    ∀ fuel : ℕ, 7 * (hol.holidays.length + 1) ≤ fuel →
      gpwdAux hol.holidays fuel d = get_previous_working_day d hol :=
  get_previous_working_day_spec d hol

/-- The holiday fixture for the C10 witness: December 31 2027 (a Friday)
is a holiday. -/
def decHoliday : HolidaysData := ⟨2027, [toOrdinal 2027 12 31], []⟩

/-- Witness for C10 at a concrete input: starting from Saturday,
January 1 2028, with Friday December 31 2027 a holiday, the function
skips both (December 31 is skipped as witnessed by the maximality part)
and the result is stable under any larger fuel. -/
theorem C10_previous_working_day_witness :
    isWorkingDay decHoliday.holidays
      (get_previous_working_day (toOrdinal 2028 1 1) decHoliday) = true ∧
    get_previous_working_day (toOrdinal 2028 1 1) decHoliday ≤ toOrdinal 2028 1 1 ∧
    isWorkingDay decHoliday.holidays (toOrdinal 2027 12 31) = false ∧
    gpwdAux decHoliday.holidays 20 (toOrdinal 2028 1 1) =
      get_previous_working_day (toOrdinal 2028 1 1) decHoliday :=
  ⟨(C10_previous_working_day_spec (toOrdinal 2028 1 1) decHoliday).1,
   (C10_previous_working_day_spec (toOrdinal 2028 1 1) decHoliday).2.1,
   (C10_previous_working_day_spec (toOrdinal 2028 1 1) decHoliday).2.2.1
     (toOrdinal 2027 12 31) (by decide) (by decide),
   (C10_previous_working_day_spec (toOrdinal 2028 1 1) decHoliday).2.2.2 20 (by decide)⟩

end Payday
